import Mathlib

/-!
Verification of the tracekit core: a shallow embedding of the workload
generation engine (`src/tracekit/src/workload.rs`), the simulator
(`src/tracekit/src/simulator.rs`) and the metrics routines
(`src/tracekit/src/metrics.rs`), with theorems settling the frozen claims
about them.

Embedding conventions:
- `u64` values are `Nat`s; every arithmetic operation that Rust performs as a
  plain (overflow-checked in debug builds) `u64` operation goes through the
  checked helpers `ckAdd` / `ckSub` / `ckMul`, which compute the wrapped
  (mod 2^64) result and raise a sticky `panicked` flag exactly when the exact
  result leaves `[0, 2^64)` (the situation in which a debug build panics and a
  release build silently wraps).  Operations the source spells `wrapping_add` /
  `wrapping_sub` / `wrapping_mul` are plain `% 2^64` and never raise the flag;
  `saturating_sub` is truncated `Nat` subtraction.
- `f64` values (workload parameters, uniform `[0,1)` draws and continuous
  distribution samples) are modelled as exact rationals represented by the
  unnormalised pair type `Frac`.  Rust float literals are modelled by the
  rational they denote (e.g. `0.8` as `4/5`); none of the proved or refuted
  statements hinges on the representation error of a float literal or on
  float rounding, because every such value only feeds branch decisions or is
  clamped into `[0, univ)` afterwards.
- The pseudo-random source (`SmallRng` seeded with `seed_from_u64`, plus the
  precomputed Zipf/Exp/Pareto distribution objects) is a deterministic
  function of the seed.  It is modelled by an oracle `Oracle : Nat → Nat →
  OracleVal`: draw number `pos` of the generator seeded with `seed` yields
  `o seed pos`, which provides the raw `u64` (for `random::<u64>()`) and the
  rational value (for `random::<f64>()` and for distribution samples) of that
  draw.  A generator stores its `seed` and its draw position `pos`, mirroring
  the RNG state; universally quantifying over the oracle covers the actual
  `SmallRng` stream.
-/

namespace Tracekit

/-- 2^64, the modulus of `u64` arithmetic. -/
def U64 : Nat := 18446744073709551616

/-- Exact rational stand-in for an `f64` value: `num / den` (den > 0 in all
reachable values; never normalised, so all operations are structural). -/
structure Frac where
  num : Int
  den : Nat
deriving DecidableEq

/-- `n as f64` for a `u64` value `n` (exact in the model). -/
def Frac.ofNat (n : Nat) : Frac := ⟨n, 1⟩

def Frac.add (a b : Frac) : Frac := ⟨a.num * b.den + b.num * a.den, a.den * b.den⟩

def Frac.sub (a b : Frac) : Frac := ⟨a.num * b.den - b.num * a.den, a.den * b.den⟩

def Frac.mul (a b : Frac) : Frac := ⟨a.num * b.num, a.den * b.den⟩

/-- `a / b`; division by zero is given an arbitrary value (the claims never
depend on it). -/
def Frac.div (a b : Frac) : Frac :=
  if b.num = 0 then ⟨0, 1⟩
  else if b.num < 0 then ⟨-(a.num * b.den), a.den * b.num.natAbs⟩
  else ⟨a.num * b.den, a.den * b.num.natAbs⟩

/-- `a < b` (denominators are positive in all reachable values). -/
def Frac.blt (a b : Frac) : Bool := decide (a.num * b.den < b.num * a.den)

/-- `a ≤ b`. -/
def Frac.ble (a b : Frac) : Bool := decide (a.num * b.den ≤ b.num * a.den)

/-- `f64::max`. -/
def Frac.fmax (a b : Frac) : Frac := if a.ble b then b else a

/-- `f64::min`. -/
def Frac.fmin (a b : Frac) : Frac := if a.ble b then a else b

/-- `f64::clamp(lo, hi)`. -/
def Frac.clamp (x lo hi : Frac) : Frac := (x.fmax lo).fmin hi

/-- `x as u64` for an `f64` value `x`: Rust saturating float-to-int cast
(truncation toward zero, negative values to 0, huge values to `u64::MAX`). -/
def f64AsU64 (q : Frac) : Nat :=
  if q.num < 0 then 0 else min (q.num.toNat / q.den) (U64 - 1)

/-- `x.round() as u64` for a nonnegative `f64` value `x`: Rust rounds half away
from zero, which for `x ≥ 0` is `⌊x + 1/2⌋`, then casts with saturation. -/
def f64RoundAsU64 (q : Frac) : Nat := f64AsU64 (q.add ⟨1, 2⟩)

/-- One pseudo-random draw: `u` is the raw value consumed as a `u64`, `q` the
value consumed as an `f64` (uniform draw or distribution sample). -/
structure OracleVal where
  u : Nat
  q : Frac

/-- The seed-indexed stream of pseudo-random draws (models `SmallRng`
seeded via `seed_from_u64` together with the distribution samplers). -/
def Oracle : Type := Nat → Nat → OracleVal

/-- The `Workload` enum (`workload.rs`).  `f64` parameters are `Frac`s,
`u64` parameters are `Nat`s. -/
inductive Workload where
  | uniform
  | hotSet (hot_fraction hot_prob : Frac)
  | scan
  | zipfian (exponent : Frac)
  | scrambledZipfian (exponent : Frac)
  | latest (exponent : Frac)
  | shiftingHotspot (shift_interval : Nat) (hot_fraction : Frac)
  | exponential (lambda : Frac)
  | pareto (shape : Frac)
  | scanResistance (scan_fraction : Frac) (scan_length : Nat) (point_exponent : Frac)
  | correlated (stride burst_len : Nat) (burst_prob : Frac)
  | loop (working_set_size : Nat)
  | workingSetChurn (working_set_size : Nat) (churn_rate : Frac)
  | bursty (hurst base_exponent : Frac)
  | flashCrowd (base_exponent flash_prob : Frac) (flash_duration flash_keys : Nat)
      (flash_intensity : Frac)
  | mixture
deriving DecidableEq

/-- The `WorkloadGenerator` struct (`workload.rs`).  The `rng: SmallRng` field
becomes the pair `(seed, pos)` indexing into the oracle; the precomputed
distribution objects need no state of their own (their samples come from the
oracle).  `panicked` is the sticky debug-overflow flag described above. -/
structure WorkloadGenerator where
  univ : Nat
  workload : Workload
  seed : Nat
  pos : Nat
  scan_pos : Nat
  operation_count : Nat
  insert_counter : Nat
  burst_remaining : Nat
  burst_start_key : Nat
  loop_pos : Nat
  working_set_base : Nat
  burst_active : Bool
  flash_active : Bool
  flash_ops_remaining : Nat
  flash_base_key : Nat
  in_scan : Bool
  scan_ops_remaining : Nat
  scan_start_key : Nat
  panicked : Bool
deriving DecidableEq

/-- `WorkloadGenerator::new` (univ clamped to at least 1, all cursors and
toggles zeroed, RNG seeded from `seed`). -/
def WorkloadGenerator.new (univ : Nat) (workload : Workload) (seed : Nat) :
    WorkloadGenerator where
  univ := max univ 1
  workload := workload
  seed := seed
  pos := 0
  scan_pos := 0
  operation_count := 0
  insert_counter := 0
  burst_remaining := 0
  burst_start_key := 0
  loop_pos := 0
  working_set_base := 0
  burst_active := false
  flash_active := false
  flash_ops_remaining := 0
  flash_base_key := 0
  in_scan := false
  scan_ops_remaining := 0
  scan_start_key := 0
  panicked := false

/-- `WorkloadGenerator::record_insert` (`wrapping_add`). -/
def WorkloadGenerator.record_insert (g : WorkloadGenerator) : WorkloadGenerator :=
  { g with insert_counter := (g.insert_counter + 1) % U64 }

/-- Consume one draw as `self.rng.random::<u64>()`. -/
def drawU (o : Oracle) (g : WorkloadGenerator) : Nat × WorkloadGenerator :=
  ((o g.seed g.pos).u % U64, { g with pos := g.pos + 1 })

/-- Consume one draw as `self.rng.random::<f64>()` or as a distribution
sample (`zipf.sample`, `exp.sample`, `pareto.sample`). -/
def drawQ (o : Oracle) (g : WorkloadGenerator) : Frac × WorkloadGenerator :=
  ((o g.seed g.pos).q, { g with pos := g.pos + 1 })

/-- Checked `u64` addition: wrapped result, flag on overflow. -/
def ckAdd (g : WorkloadGenerator) (a b : Nat) : Nat × WorkloadGenerator :=
  ((a + b) % U64, if a + b < U64 then g else { g with panicked := true })

/-- Checked `u64` subtraction: wrapped result, flag on underflow. -/
def ckSub (g : WorkloadGenerator) (a b : Nat) : Nat × WorkloadGenerator :=
  if b ≤ a then (a - b, g) else ((a + U64 - b) % U64, { g with panicked := true })

/-- Checked `u64` multiplication: wrapped result, flag on overflow. -/
def ckMul (g : WorkloadGenerator) (a b : Nat) : Nat × WorkloadGenerator :=
  (a * b % U64, if a * b < U64 then g else { g with panicked := true })

/-- FNV-1a over the 8 little-endian bytes of a `u64` key (`fnv_hash` in
`workload.rs`; the multiplication is `wrapping_mul`). -/
def fnv_hash (key : Nat) : Nat :=
  (List.range 8).foldl
    (fun h i => ((h ^^^ (key / 2 ^ (8 * i) % 256)) * 0x100000001b3) % U64)
    0xcbf29ce484222325

/-- `WorkloadGenerator::next_key`, arm by arm from `workload.rs`. -/
def WorkloadGenerator.next_key (o : Oracle) (g : WorkloadGenerator) :
    Nat × WorkloadGenerator :=
  let g := { g with operation_count := (g.operation_count + 1) % U64 }
  match g.workload with
  | Workload.uniform =>
    let (r, g) := drawU o g
    (r % g.univ, g)
  | Workload.hotSet hot_fraction hot_prob =>
    let hot_fraction := hot_fraction.clamp ⟨0, 1⟩ ⟨1, 1⟩
    let hot_prob := hot_prob.clamp ⟨0, 1⟩ ⟨1, 1⟩
    let hot_size := f64RoundAsU64 ((Frac.ofNat g.univ).mul hot_fraction)
    let hot_size := min (max hot_size 1) g.univ
    let (q, g) := drawQ o g
    if q.blt hot_prob then
      let (r, g) := drawU o g
      (r % hot_size, g)
    else if hot_size = g.univ then
      let (r, g) := drawU o g
      (r % g.univ, g)
    else
      let (r, g) := drawU o g
      let (d, g) := ckSub g g.univ hot_size
      let (k, g) := ckAdd g hot_size (r % d)
      (k, g)
  | Workload.scan =>
    let key := g.scan_pos
    let (p, g) := ckAdd g g.scan_pos 1
    (key, { g with scan_pos := p % g.univ })
  | Workload.zipfian _ =>
    let (s, g) := drawQ o g
    let (t, g) := ckSub g g.univ 1
    (min (f64AsU64 s - 1) t, g)
  | Workload.scrambledZipfian _ =>
    let (s, g) := drawQ o g
    let (t, g) := ckSub g g.univ 1
    let key := min (f64AsU64 s - 1) t
    (fnv_hash key % g.univ, g)
  | Workload.latest _ =>
    let (s, g) := drawQ o g
    let (t, g) := ckSub g g.univ 1
    let offset := min (f64AsU64 s - 1) t
    ((g.insert_counter + U64 - offset) % U64 % g.univ, g)
  | Workload.shiftingHotspot shift_interval hot_fraction =>
    let hot_fraction := hot_fraction.clamp ⟨0, 1⟩ ⟨1, 1⟩
    let hot_size := f64RoundAsU64 ((Frac.ofNat g.univ).mul hot_fraction)
    let hot_size := min (max hot_size 1) g.univ
    let shift_count := g.operation_count / max shift_interval 1
    let (p, g) := ckMul g shift_count hot_size
    let hotspot_base := p % g.univ
    let (q, g) := drawQ o g
    if q.blt ⟨4, 5⟩ then
      let (r, g) := drawU o g
      let (k, g) := ckAdd g hotspot_base (r % hot_size)
      (k, g)
    else
      let (r, g) := drawU o g
      (r % g.univ, g)
  | Workload.exponential _ =>
    let (s, g) := drawQ o g
    let (t, g) := ckSub g g.univ 1
    (min (f64AsU64 (s.mul ((Frac.ofNat g.univ).div ⟨10, 1⟩))) t, g)
  | Workload.pareto _ =>
    let (s, g) := drawQ o g
    let (t, g) := ckSub g g.univ 1
    (min (f64AsU64 ((s.sub ⟨1, 1⟩).mul ((Frac.ofNat g.univ).div ⟨10, 1⟩))) t, g)
  | Workload.scanResistance scan_fraction scan_length _ =>
    let g :=
      if g.in_scan then g
      else
        let (q, g) := drawQ o g
        if q.blt scan_fraction then
          let (r, g) := drawU o g
          { g with in_scan := true, scan_ops_remaining := scan_length,
                   scan_start_key := r % g.univ }
        else g
    if g.in_scan then
      let (d, g) := ckSub g scan_length g.scan_ops_remaining
      let (s, g) := ckAdd g g.scan_start_key d
      let key := s % g.univ
      let (rem, g) := ckSub g g.scan_ops_remaining 1
      let g := { g with scan_ops_remaining := rem }
      let g := if rem = 0 then { g with in_scan := false } else g
      (key, g)
    else
      let (s, g) := drawQ o g
      let (t, g) := ckSub g g.univ 1
      (min (f64AsU64 s - 1) t, g)
  | Workload.correlated stride burst_len burst_prob =>
    if g.burst_remaining > 0 then
      let (d, g) := ckSub g burst_len g.burst_remaining
      let (m, g) := ckMul g d stride
      let (s, g) := ckAdd g g.burst_start_key m
      let key := s % g.univ
      let (rem, g) := ckSub g g.burst_remaining 1
      (key, { g with burst_remaining := rem })
    else
      let (q, g) := drawQ o g
      if q.blt burst_prob then
        let (r, g) := drawU o g
        let key := r % g.univ
        (key, { g with burst_remaining := burst_len - 1, burst_start_key := key })
      else
        let (r, g) := drawU o g
        (r % g.univ, g)
  | Workload.loop working_set_size =>
    let key := g.loop_pos % max working_set_size 1
    (key, { g with loop_pos := (g.loop_pos + 1) % U64 })
  | Workload.workingSetChurn working_set_size churn_rate =>
    let working_set_size := max working_set_size 1
    let (q, g) := drawQ o g
    let g :=
      if q.blt churn_rate then
        let (d, g) := ckSub g g.univ working_set_size
        let (d1, g) := ckAdd g d 1
        let (b, g) := ckAdd g g.working_set_base 1
        { g with working_set_base := b % max d1 1 }
      else g
    let (r, g) := drawU o g
    let (s, g) := ckAdd g g.working_set_base (r % working_set_size)
    (s % g.univ, g)
  | Workload.bursty hurst _ =>
    let state_persistence := ((hurst.sub ⟨1, 2⟩).fmax ⟨0, 1⟩).mul ⟨2, 1⟩
    let g :=
      if g.burst_active then
        let (q, g) := drawQ o g
        if state_persistence.blt q then { g with burst_active := false } else g
      else
        let (q, g) := drawQ o g
        if q.blt (((Frac.ofNat 1).sub state_persistence).mul ⟨1, 10⟩) then
          { g with burst_active := true }
        else g
    let (s, g) := drawQ o g
    let (t, g) := ckSub g g.univ 1
    let key := min (f64AsU64 s - 1) t
    if g.burst_active then (key % max (g.univ / 10) 1, g) else (key, g)
  | Workload.flashCrowd _ flash_prob flash_duration flash_keys flash_intensity =>
    let g :=
      if g.flash_active then g
      else
        let (q, g) := drawQ o g
        if q.blt flash_prob then
          let (r, g) := drawU o g
          { g with flash_active := true, flash_ops_remaining := flash_duration,
                   flash_base_key := r % g.univ }
        else g
    if g.flash_active then
      let (rem, g) := ckSub g g.flash_ops_remaining 1
      let g := { g with flash_ops_remaining := rem }
      let g := if rem = 0 then { g with flash_active := false } else g
      let (q, g) := drawQ o g
      if q.blt (flash_intensity.div (flash_intensity.add ⟨1, 1⟩)) then
        let (r, g) := drawU o g
        let (k, g) := ckAdd g g.flash_base_key (r % max flash_keys 1)
        (k, g)
      else
        let (s, g) := drawQ o g
        let (t, g) := ckSub g g.univ 1
        (min (f64AsU64 s - 1) t, g)
    else
      let (s, g) := drawQ o g
      let (t, g) := ckSub g g.univ 1
      (min (f64AsU64 s - 1) t, g)
  | Workload.mixture =>
    let (r, g) := drawQ o g
    if r.blt ⟨7, 10⟩ then
      let (q, g) := drawQ o g
      let rank := ((Frac.ofNat 1).div (q.fmax ⟨1, 1000⟩)).fmin (Frac.ofNat g.univ)
      let (t, g) := ckSub g g.univ 1
      (min (f64AsU64 rank - 1) t, g)
    else if r.blt ⟨9, 10⟩ then
      let key := g.scan_pos
      let (p, g) := ckAdd g g.scan_pos 1
      (key, { g with scan_pos := p % g.univ })
    else
      let (r2, g) := drawU o g
      (r2 % g.univ, g)

/-- Generator state after `n` calls to `next_key`. -/
def genSteps (o : Oracle) (g : WorkloadGenerator) : Nat → WorkloadGenerator
  | 0 => g
  | n + 1 => (WorkloadGenerator.next_key o (genSteps o g n)).2

/-- The key returned by call number `n` (counting from 0) to `next_key`. -/
def nthKey (o : Oracle) (g : WorkloadGenerator) (n : Nat) : Nat :=
  (WorkloadGenerator.next_key o (genSteps o g n)).1

/-- The list of the first `n` keys produced by the generator. -/
def keyTrace (o : Oracle) : WorkloadGenerator → Nat → List Nat
  | _, 0 => []
  | g, n + 1 =>
    (WorkloadGenerator.next_key o g).1 :: keyTrace o (WorkloadGenerator.next_key o g).2 n

/-- The `Op` enum (`event.rs`). -/
inductive Op where
  | get
  | insert
  | delete
deriving DecidableEq

/-- The `Event` struct (`event.rs`). -/
structure Event where
  key : Nat
  op : Op
  weight : Option Nat
  ts : Option Nat
deriving DecidableEq

/-- `Event::get`. -/
def Event.get (key : Nat) : Event := ⟨key, Op.get, none, none⟩

/-- `Event::insert`. -/
def Event.insert (key : Nat) : Event := ⟨key, Op.insert, none, none⟩

/-- `Event::delete`. -/
def Event.delete (key : Nat) : Event := ⟨key, Op.delete, none, none⟩

/-- The `HitStats` struct (`metrics.rs`): `u64` counters.  One finite replay
cannot take them anywhere near 2^64 per event, so they are plain `Nat`s. -/
structure HitStats where
  hits : Nat
  misses : Nat
  inserts : Nat
  updates : Nat
deriving DecidableEq

/-- The `CacheModel` trait (`model.rs`): a cache with state type `σ`.
`get` returns the hit/miss flag together with the mutated cache (lookups may
update recency/frequency state). -/
structure CacheModel (σ : Type) where
  get : σ → Nat → Bool × σ
  insert : σ → Nat → σ
  delete : σ → Nat → σ

/-- The main loop of `simulate` (`simulator.rs`), accumulating into `stats`.
A finite event source is its list of events; the `u64` counters cannot reach
2^64 within one finite replay, so they are plain `Nat`s here. -/
def simulateFrom {σ : Type} (cm : CacheModel σ) (stats : HitStats) (s : σ) :
    List Event → HitStats × σ
  | [] => (stats, s)
  | e :: rest =>
    match e.op with
    | Op.get =>
      if (cm.get s e.key).1 then
        simulateFrom cm { stats with hits := stats.hits + 1 } (cm.get s e.key).2 rest
      else
        simulateFrom cm { stats with misses := stats.misses + 1, inserts := stats.inserts + 1 }
          (cm.insert (cm.get s e.key).2 e.key) rest
    | Op.insert =>
      simulateFrom cm { stats with inserts := stats.inserts + 1 } (cm.insert s e.key) rest
    | Op.delete => simulateFrom cm stats (cm.delete s e.key) rest

/-- `simulate` (`simulator.rs`): read-through replay, starting from
`HitStats::default()`. -/
def simulate {σ : Type} (cm : CacheModel σ) (s : σ) (events : List Event) :
    HitStats × σ :=
  simulateFrom cm ⟨0, 0, 0, 0⟩ s events

/-- The main loop of `simulate_explicit` (`simulator.rs`): a Get miss neither
inserts nor counts an insert. -/
def simulateExplicitFrom {σ : Type} (cm : CacheModel σ) (stats : HitStats) (s : σ) :
    List Event → HitStats × σ
  | [] => (stats, s)
  | e :: rest =>
    match e.op with
    | Op.get =>
      if (cm.get s e.key).1 then
        simulateExplicitFrom cm { stats with hits := stats.hits + 1 } (cm.get s e.key).2 rest
      else
        simulateExplicitFrom cm { stats with misses := stats.misses + 1 } (cm.get s e.key).2 rest
    | Op.insert =>
      simulateExplicitFrom cm { stats with inserts := stats.inserts + 1 } (cm.insert s e.key) rest
    | Op.delete => simulateExplicitFrom cm stats (cm.delete s e.key) rest

/-- `simulate_explicit` (`simulator.rs`). -/
def simulate_explicit {σ : Type} (cm : CacheModel σ) (s : σ) (events : List Event) :
    HitStats × σ :=
  simulateExplicitFrom cm ⟨0, 0, 0, 0⟩ s events

/-- An unbounded set-like cache: the simplest `CacheModel` instance (never
evicts), used to instantiate the spec's "initially empty cache" examples. -/
def listCacheModel : CacheModel (List Nat) where
  get := fun s k => (s.contains k, s)
  insert := fun s k => k :: s
  delete := fun s k => s.filter (fun x => x ≠ k)

/-- Number of Get events in a trace. -/
def countGets (events : List Event) : Nat :=
  events.countP (fun e => decide (e.op = Op.get))

/-- Number of explicit Insert events in a trace. -/
def countInserts (events : List Event) : Nat :=
  events.countP (fun e => decide (e.op = Op.insert))

/-- The `BoundedGenerator` struct (`workload.rs`). -/
structure BoundedGenerator where
  inner : WorkloadGenerator
  remaining : Nat
  total : Nat

/-- `BoundedGenerator::new`. -/
def BoundedGenerator.new (inner : WorkloadGenerator) (count : Nat) : BoundedGenerator :=
  ⟨inner, count, count⟩

/-- `BoundedGenerator::next_event` (`EventSource` impl in `workload.rs`). -/
def BoundedGenerator.next_event (o : Oracle) (bg : BoundedGenerator) :
    Option Event × BoundedGenerator :=
  if bg.remaining = 0 then (none, bg)
  else
    (some (Event.get (WorkloadGenerator.next_key o bg.inner).1),
     { bg with inner := (WorkloadGenerator.next_key o bg.inner).2,
               remaining := bg.remaining - 1 })

/-- `BoundedGenerator::size_hint`. -/
def BoundedGenerator.size_hint (bg : BoundedGenerator) : Option Nat :=
  some bg.remaining

/-- Bounded generator state after `i` calls to `next_event`. -/
def bgSteps (o : Oracle) (bg : BoundedGenerator) : Nat → BoundedGenerator
  | 0 => bg
  | i + 1 => (BoundedGenerator.next_event o (bgSteps o bg i)).2

/-- The value returned by call number `i` (counting from 0) to `next_event`. -/
def bgOut (o : Oracle) (bg : BoundedGenerator) (i : Nat) : Option Event :=
  (BoundedGenerator.next_event o (bgSteps o bg i)).1

/-- The `LatencyStats` struct (`metrics.rs`); `Duration`s are nanosecond
counts, modelled as `Nat`s (`Duration` is totally ordered and sums/divides
exactly like `Nat` here). -/
structure LatencyStats where
  min : Nat
  p50 : Nat
  p95 : Nat
  p99 : Nat
  max : Nat
  mean : Nat
  sample_count : Nat
deriving DecidableEq

/-- `LatencyStats::default()`: all fields zero. -/
def LatencyStats.zero : LatencyStats := ⟨0, 0, 0, 0, 0, 0, 0⟩

/-- `LatencyStats::from_samples` (`metrics.rs`): sort, then index directly
with truncating integer division.  `sort_unstable` on `Nat`s produces the
unique `≤`-sorted permutation, here `insertionSort`; its length equals
`samples.len()`. -/
def LatencyStats.from_samples (samples : List Nat) : LatencyStats :=
  if samples.isEmpty then LatencyStats.zero
  else
    let sorted := samples.insertionSort (· ≤ ·)
    let n := sorted.length
    { min := sorted.getD 0 0
      p50 := sorted.getD (n / 2) 0
      p95 := sorted.getD (n * 95 / 100) 0
      p99 := sorted.getD (n * 99 / 100) 0
      max := sorted.getD (n - 1) 0
      mean := sorted.sum / n
      sample_count := n }

/-- The `LatencySampler` struct (`metrics.rs`).  `panicked` is the sticky
failure flag: it records a `u64` counter overflow (a debug-build panic) or —
the capacity-0 case — the `%` by zero in the replacement path, which panics
in every build profile. -/
structure LatencySampler where
  samples : List Nat
  capacity : Nat
  count : Nat
  sample_rate : Nat
  panicked : Bool
deriving DecidableEq

/-- `LatencySampler::new` (sample rate clamped to at least 1). -/
def LatencySampler.new (capacity sample_rate : Nat) : LatencySampler :=
  ⟨[], capacity, 0, max sample_rate 1, false⟩

/-- `LatencySampler::record` (`metrics.rs`).  Both in-place index assignments
hit indices below `capacity = samples.len()` on reachable states, so
`List.set` models them; `(count as usize) % capacity` panics when
`capacity = 0`. -/
def LatencySampler.record (s : LatencySampler) (duration : Nat) : LatencySampler :=
  let s := { s with count := (s.count + 1) % U64,
                    panicked := s.panicked || decide (U64 ≤ s.count + 1) }
  if s.count % s.sample_rate ≠ 0 then s
  else if s.samples.length < s.capacity then { s with samples := s.samples ++ [duration] }
  else
    let idx := s.count / s.sample_rate
    if idx < s.capacity then { s with samples := s.samples.set idx duration }
    else if s.capacity = 0 then { s with panicked := true }
    else { s with samples := s.samples.set (s.count % s.capacity) duration }

/-- `LatencySampler::stats`. -/
def LatencySampler.stats (s : LatencySampler) : LatencyStats :=
  LatencyStats.from_samples s.samples

/-! ### Concrete oracles used by the concrete evaluations -/

/-- An RNG stream whose draws are all zero. -/
def oZero : Oracle := fun _ _ => ⟨0, ⟨0, 1⟩⟩

/-- An RNG stream whose second draw (position 1) is the `u64` value 1 and all
other draws are zero.  Any `SmallRng` seed whose first `f64` draw is below 0.8
and whose next `u64` draw is odd realises the same branch decisions. -/
def oC1 : Oracle := fun _ pos => if pos = 1 then ⟨1, ⟨0, 1⟩⟩ else ⟨0, ⟨0, 1⟩⟩

/-! ### Claims -/

/-- C1: the range invariant `0 ≤ key < universe` fails on the code.  A
`ShiftingHotspot` generator with `universe = 3`, `shift_interval = 1`,
`hot_fraction = 0.7` (so `hot_size = 2` and, on the first call,
`hotspot_base = (1 * 2) % 3 = 2`) returns the key
`hotspot_base + rng % hot_size = 3` — equal to the universe, not below it —
on a normal, non-overflowing call in which the 80% branch is taken and the
offset draw is odd; the arm never reduces its sum modulo the universe.  (The
`FlashCrowd` flash branch `flash_base_key + rng % flash_keys` has the same
omission.) -/
theorem c1_range_invariant_violated :
    (WorkloadGenerator.new 3 (Workload.shiftingHotspot 1 ⟨7, 10⟩) 0).univ = 3 ∧
    (WorkloadGenerator.next_key oC1
        (WorkloadGenerator.new 3 (Workload.shiftingHotspot 1 ⟨7, 10⟩) 0)).1 = 3 ∧
    (WorkloadGenerator.next_key oC1
        (WorkloadGenerator.new 3 (Workload.shiftingHotspot 1 ⟨7, 10⟩) 0)).2.panicked = false := by
  decide

/-- C2: sampling is not infallible.  A `ScanResistance` generator with
`scan_length = 0` enters a scan (here `scan_fraction = 1`, so the very first
call starts one) with `scan_ops_remaining = 0` and then executes
`self.scan_ops_remaining -= 1`, a `u64` underflow: a panic in a debug build,
a silent wrap to 2^64 - 1 (leaving the generator stuck in scan state) in
release.  The sticky `panicked` flag records exactly this. -/
theorem c2_sampling_underflows :
    (WorkloadGenerator.new 5 (Workload.scanResistance ⟨1, 1⟩ 0 ⟨1, 1⟩) 0).panicked = false ∧
    (WorkloadGenerator.next_key oZero
        (WorkloadGenerator.new 5 (Workload.scanResistance ⟨1, 1⟩ 0 ⟨1, 1⟩) 0)).2.panicked
      = true := by
  decide

/-- C3: determinism — two generators independently constructed from the same
`(universe, workload, seed)` triple (and hence, since `SmallRng` seeding is a
deterministic function of the seed, fed by the same draw stream) produce the
same key sequence for every prefix length. -/
theorem c3_determinism :
    ∀ (u : Nat) (w : Workload) (s : Nat) (o : Oracle) (n : Nat)
      (g1 g2 : WorkloadGenerator),
      g1 = WorkloadGenerator.new u w s → g2 = WorkloadGenerator.new u w s →
      keyTrace o g1 n = keyTrace o g2 n := by
  intro u w s o n g1 g2 h1 h2
  rw [h1, h2]

/-- Witness for C3 at a concrete triple. -/
theorem c3_determinism_witness :
    keyTrace oZero (WorkloadGenerator.new 4 Workload.uniform 7) 3 =
      keyTrace oZero (WorkloadGenerator.new 4 Workload.uniform 7) 3 :=
  c3_determinism 4 Workload.uniform 7 oZero 3 _ _ rfl rfl

/-- C4: `simulate` read-through semantics.  On a Get event it calls
`cache.get`; on a hit it increments `hits`; on a miss it increments `misses`,
calls `cache.insert` with that key (on the post-lookup cache state) and
increments `inserts`.  In particular, replaying `[Get(5), Get(5)]` against an
initially empty cache yields `hits = 1, misses = 1, inserts = 1`. -/
theorem c4_simulate_read_through :
    (∀ (σ : Type) (cm : CacheModel σ) (stats : HitStats) (s : σ) (k : Nat)
        (rest : List Event),
      simulateFrom cm stats s (Event.get k :: rest) =
        if (cm.get s k).1 then
          simulateFrom cm { stats with hits := stats.hits + 1 } (cm.get s k).2 rest
        else
          simulateFrom cm
            { stats with misses := stats.misses + 1, inserts := stats.inserts + 1 }
            (cm.insert (cm.get s k).2 k) rest) ∧
    (simulate listCacheModel [] [Event.get 5, Event.get 5]).1 = ⟨1, 1, 1, 0⟩ :=
  ⟨fun _ _ _ _ _ _ => rfl, by decide⟩

/-- C5: `simulate_explicit` no-backfill semantics.  It behaves like
`simulate` except that a Get miss performs no `cache.insert` call (the cache
state stays the post-lookup state) and does not increment `inserts`.  In
particular, replaying `[Get(5)]` against an initially empty cache yields
`hits = 0, misses = 1, inserts = 0`. -/
theorem c5_simulate_explicit_no_backfill :
    (∀ (σ : Type) (cm : CacheModel σ) (stats : HitStats) (s : σ) (k : Nat)
        (rest : List Event),
      simulateExplicitFrom cm stats s (Event.get k :: rest) =
        if (cm.get s k).1 then
          simulateExplicitFrom cm { stats with hits := stats.hits + 1 } (cm.get s k).2 rest
        else
          simulateExplicitFrom cm { stats with misses := stats.misses + 1 }
            (cm.get s k).2 rest) ∧
    (simulate_explicit listCacheModel [] [Event.get 5]).1 = ⟨0, 1, 0, 0⟩ :=
  ⟨fun _ _ _ _ _ _ => rfl, by decide⟩

/-- Accounting of `simulateFrom` relative to its accumulator. -/
theorem simulateFrom_counts {σ : Type} (cm : CacheModel σ) :
    ∀ (events : List Event) (stats : HitStats) (s : σ),
      (simulateFrom cm stats s events).1.updates = stats.updates ∧
      (simulateFrom cm stats s events).1.hits + (simulateFrom cm stats s events).1.misses
        = stats.hits + stats.misses + countGets events ∧
      (simulateFrom cm stats s events).1.inserts + stats.misses
        = stats.inserts + (simulateFrom cm stats s events).1.misses + countInserts events := by
  intro events
  induction events with
  | nil => intro stats s; simp [simulateFrom, countGets, countInserts]
  | cons e rest ih =>
    intro stats s
    rcases e with ⟨k, op, w, t⟩
    cases op with
    | get =>
      by_cases hb : (cm.get s k).1 = true
      · have h := ih { stats with hits := stats.hits + 1 } (cm.get s k).2
        simp [simulateFrom, countGets, countInserts, List.countP_cons, hb] at h ⊢
        omega
      · have h := ih { stats with misses := stats.misses + 1, inserts := stats.inserts + 1 }
          (cm.insert (cm.get s k).2 k)
        simp [simulateFrom, countGets, countInserts, List.countP_cons, hb] at h ⊢
        omega
    | insert =>
      have h := ih { stats with inserts := stats.inserts + 1 } (cm.insert s k)
      simp [simulateFrom, countGets, countInserts, List.countP_cons] at h ⊢
      omega
    | delete =>
      have h := ih stats (cm.delete s k)
      simp [simulateFrom, countGets, countInserts, List.countP_cons] at h ⊢
      omega

/-- Accounting of `simulateExplicitFrom` relative to its accumulator. -/
theorem simulateExplicitFrom_counts {σ : Type} (cm : CacheModel σ) :
    ∀ (events : List Event) (stats : HitStats) (s : σ),
      (simulateExplicitFrom cm stats s events).1.updates = stats.updates ∧
      (simulateExplicitFrom cm stats s events).1.hits
          + (simulateExplicitFrom cm stats s events).1.misses
        = stats.hits + stats.misses + countGets events ∧
      (simulateExplicitFrom cm stats s events).1.inserts
        = stats.inserts + countInserts events := by
  intro events
  induction events with
  | nil => intro stats s; simp [simulateExplicitFrom, countGets, countInserts]
  | cons e rest ih =>
    intro stats s
    rcases e with ⟨k, op, w, t⟩
    cases op with
    | get =>
      by_cases hb : (cm.get s k).1 = true
      · have h := ih { stats with hits := stats.hits + 1 } (cm.get s k).2
        simp [simulateExplicitFrom, countGets, countInserts, List.countP_cons, hb] at h ⊢
        omega
      · have h := ih { stats with misses := stats.misses + 1 } (cm.get s k).2
        simp [simulateExplicitFrom, countGets, countInserts, List.countP_cons, hb] at h ⊢
        omega
    | insert =>
      have h := ih { stats with inserts := stats.inserts + 1 } (cm.insert s k)
      simp [simulateExplicitFrom, countGets, countInserts, List.countP_cons] at h ⊢
      omega
    | delete =>
      have h := ih stats (cm.delete s k)
      simp [simulateExplicitFrom, countGets, countInserts, List.countP_cons] at h ⊢
      omega

/-- C10: stats accounting invariant of both replay loops, for every cache
model and every finite event source: `updates` is never touched;
`hits + misses` equals the number of Get events; `simulate` backfills every
miss, so its `inserts` equals `misses` plus the number of explicit Insert
events; `simulate_explicit` inserts only on explicit Insert events. -/
theorem c10_stats_accounting :
    ∀ (σ : Type) (cm : CacheModel σ) (s : σ) (events : List Event),
      ((simulate cm s events).1.updates = 0 ∧
       (simulate cm s events).1.hits + (simulate cm s events).1.misses
         = countGets events ∧
       (simulate cm s events).1.inserts
         = (simulate cm s events).1.misses + countInserts events) ∧
      ((simulate_explicit cm s events).1.updates = 0 ∧
       (simulate_explicit cm s events).1.hits + (simulate_explicit cm s events).1.misses
         = countGets events ∧
       (simulate_explicit cm s events).1.inserts = countInserts events) := by
  intro σ cm s events
  have h := simulateFrom_counts cm events ⟨0, 0, 0, 0⟩ s
  have h' := simulateExplicitFrom_counts cm events ⟨0, 0, 0, 0⟩ s
  simp [simulate, simulate_explicit] at h h' ⊢
  omega

/-- C9: `LatencySampler` is not total for capacity 0.  `stats()` on a sampler
that collected no samples does return the zero-valued `LatencyStats`, but a
`record` call on a sampler of capacity 0 whose count lands on a sampling tick
reaches `(self.count as usize) % self.capacity` — a remainder by zero, which
panics in Rust in every build profile. -/
theorem c9_capacity_zero_record_fails :
    LatencySampler.stats (LatencySampler.new 0 1) = LatencyStats.zero ∧
    (LatencySampler.new 0 1).panicked = false ∧
    (LatencySampler.record (LatencySampler.new 0 1) 7).panicked = true := by
  decide

/-- One `next_event` call decrements `remaining` (saturating at 0, where the
call returns `None` and leaves the state unchanged). -/
theorem next_event_remaining (o : Oracle) (bg : BoundedGenerator) :
    (BoundedGenerator.next_event o bg).2.remaining = bg.remaining - 1 := by
  by_cases h : bg.remaining = 0
  · simp [BoundedGenerator.next_event, h]
  · simp [BoundedGenerator.next_event, h]

/-- `remaining` after `i` calls. -/
theorem bgSteps_remaining (o : Oracle) (bg : BoundedGenerator) :
    ∀ i, (bgSteps o bg i).remaining = bg.remaining - i := by
  intro i
  induction i with
  | zero => rfl
  | succ i ih =>
    have h := next_event_remaining o (bgSteps o bg i)
    simp only [bgSteps, h, ih]
    omega

/-- C6: `BoundedGenerator::new(gen, N)` yields exactly `N` `Some(event)`
values (call `i`, counting from 0, is `Some` iff `i < N`) followed by `None`
on every subsequent call, and at every step `size_hint()` is `Some` of the
exact number of events still remaining, namely `N - i` after `i` calls. -/
theorem c6_bounded_generator_exhaustion :
    ∀ (o : Oracle) (g : WorkloadGenerator) (N i : Nat),
      (bgSteps o (BoundedGenerator.new g N) i).remaining = N - i ∧
      BoundedGenerator.size_hint (bgSteps o (BoundedGenerator.new g N) i) = some (N - i) ∧
      (bgOut o (BoundedGenerator.new g N) i).isSome = decide (i < N) := by
  intro o g N i
  have hrem : (bgSteps o (BoundedGenerator.new g N) i).remaining = N - i :=
    bgSteps_remaining o (BoundedGenerator.new g N) i
  refine ⟨hrem, by simp [BoundedGenerator.size_hint, hrem], ?_⟩
  by_cases h : (bgSteps o (BoundedGenerator.new g N) i).remaining = 0
  · have hi : ¬ i < N := by omega
    simp [bgOut, BoundedGenerator.next_event, h, hi]
  · have hi : i < N := by omega
    simp [bgOut, BoundedGenerator.next_event, h, hi]

/-- `next_key` on a `Loop` generator: the key is the cursor modulo the
(clamped) working-set size, and the only state change is the wrapping
advance of the operation counter and of the cursor. -/
theorem next_key_loop (o : Oracle) (W : Nat) (g : WorkloadGenerator)
    (hw : g.workload = Workload.loop W) :
    WorkloadGenerator.next_key o g =
      (g.loop_pos % max W 1,
       { g with operation_count := (g.operation_count + 1) % U64,
                loop_pos := (g.loop_pos + 1) % U64 }) := by
  rcases g with ⟨u, w, sd, p, sp, oc, ic, br, bsk, lp, wsb, ba, fa, fo, fb, isc, sor, ssk, pk⟩
  cases hw
  rfl

/-- State of a fresh `Loop` generator after `n` calls: both `u64` counters
hold `n % 2^64`, everything else is untouched. -/
theorem genSteps_loop (o : Oracle) (u s W : Nat) :
    ∀ n, genSteps o (WorkloadGenerator.new u (Workload.loop W) s) n =
      { WorkloadGenerator.new u (Workload.loop W) s with
          operation_count := n % U64, loop_pos := n % U64 } := by
  intro n
  induction n with
  | zero => rfl
  | succ n ih =>
    simp only [genSteps, ih]
    rw [next_key_loop o W _ (by rfl)]
    simp [WorkloadGenerator.new, Nat.mod_add_mod]

/-- C7 (amended): the `n`-th call (counting from 0) to `next_key` of a `Loop`
generator with working-set size `W ≥ 1` returns `(n % 2^64) % W`, for every
universe and seed: the cycle `0, 1, ..., W-1` repeats, but through a `u64`
cursor that wraps at 2^64. -/
theorem c7_loop_periodicity :
    ∀ (o : Oracle) (u s W n : Nat), 1 ≤ W →
      nthKey o (WorkloadGenerator.new u (Workload.loop W) s) n = n % U64 % W := by
  intro o u s W n hW
  have h := genSteps_loop o u s W n
  have h2 := next_key_loop o W (genSteps o (WorkloadGenerator.new u (Workload.loop W) s) n)
    (by rw [h]; rfl)
  rw [nthKey, h2]
  simp only [h]
  rw [Nat.max_eq_left hW]

/-- Witness for C7 (amended) at a concrete input. -/
theorem c7_loop_periodicity_witness :
    1 ≤ 3 ∧
    nthKey oZero (WorkloadGenerator.new 5 (Workload.loop 3) 0) 5 = 5 % U64 % 3 :=
  ⟨by decide, c7_loop_periodicity oZero 5 0 3 5 (by decide)⟩

/-- C7 counterexample to the claim as stated: at call number `n = 2^64` the
`Loop { working_set_size: 3 }` generator returns `(2^64 % 2^64) % 3 = 0`,
whereas the claim demands `n mod W = 2^64 % 3 = 1` — the `u64` cursor
(`wrapping_add`) has wrapped. -/
theorem c7_loop_wraparound_counterexample :
    nthKey oZero (WorkloadGenerator.new 5 (Workload.loop 3) 0) (2 ^ 64) = 0 ∧
    2 ^ 64 % 3 = 1 := by
  constructor
  · have h := genSteps_loop oZero 5 0 3 (2 ^ 64)
    have h2 := next_key_loop oZero 3
      (genSteps oZero (WorkloadGenerator.new 5 (Workload.loop 3) 0) (2 ^ 64))
      (by rw [h]; rfl)
    rw [nthKey, h2, h]
    show (2 ^ 64 % U64) % max 3 1 = 0
    norm_num [U64]
  · norm_num

/-- On a `≤`-sorted list, `getD` (with any default) is monotone over in-range
indices. -/
theorem sorted_getD_mono {l : List Nat} (hl : l.Sorted (· ≤ ·)) {i j : Nat}
    (hij : i ≤ j) (hj : j < l.length) : l.getD i 0 ≤ l.getD j 0 := by
  rcases Nat.lt_or_ge i j with h | h
  · rw [List.getD_eq_getElem l 0 (lt_trans h hj), List.getD_eq_getElem l 0 hj]
    exact List.pairwise_iff_getElem.mp hl i j (lt_trans h hj) hj h
  · have hij' : i = j := le_antisymm hij h
    subst hij'
    rfl

/-- C8: latency percentile ordering — for every non-empty sample list the
stats produced by `LatencyStats::from_samples` (direct truncating-division
indices `n/2`, `n*95/100`, `n*99/100` into the sorted samples) satisfy
`min ≤ p50 ≤ p95 ≤ p99 ≤ max`. -/
theorem c8_percentile_ordering (samples : List Nat) (h : samples ≠ []) :
    (LatencyStats.from_samples samples).min ≤ (LatencyStats.from_samples samples).p50 ∧
    (LatencyStats.from_samples samples).p50 ≤ (LatencyStats.from_samples samples).p95 ∧
    (LatencyStats.from_samples samples).p95 ≤ (LatencyStats.from_samples samples).p99 ∧
    (LatencyStats.from_samples samples).p99 ≤ (LatencyStats.from_samples samples).max := by
  have hne : samples.isEmpty = false := by
    cases samples with
    | nil => exact absurd rfl h
    | cons a l => rfl
  have hsort : (samples.insertionSort (· ≤ ·)).Sorted (· ≤ ·) :=
    List.sorted_insertionSort (· ≤ ·) samples
  have hlen : (samples.insertionSort (· ≤ ·)).length = samples.length :=
    (List.perm_insertionSort (· ≤ ·) samples).length_eq
  have hpos : 1 ≤ (samples.insertionSort (· ≤ ·)).length := by
    rw [hlen]
    exact List.length_pos.mpr h
  simp only [LatencyStats.from_samples, hne, Bool.false_eq_true, if_false]
  refine ⟨sorted_getD_mono hsort (by omega) (by omega),
          sorted_getD_mono hsort (by omega) (by omega),
          sorted_getD_mono hsort (by omega) (by omega),
          sorted_getD_mono hsort (by omega) (by omega)⟩

/-- Witness for C8 at a concrete sample list. -/
theorem c8_percentile_ordering_witness :
    ([3, 1, 2] : List Nat) ≠ [] ∧
    ((LatencyStats.from_samples [3, 1, 2]).min ≤ (LatencyStats.from_samples [3, 1, 2]).p50 ∧
     (LatencyStats.from_samples [3, 1, 2]).p50 ≤ (LatencyStats.from_samples [3, 1, 2]).p95 ∧
     (LatencyStats.from_samples [3, 1, 2]).p95 ≤ (LatencyStats.from_samples [3, 1, 2]).p99 ∧
     (LatencyStats.from_samples [3, 1, 2]).p99 ≤ (LatencyStats.from_samples [3, 1, 2]).max) :=
  ⟨by decide, c8_percentile_ordering [3, 1, 2] (by decide)⟩

end Tracekit
